import Mathlib

/-!
Verification of the Change-Coverage Analysis Pipeline
(coverage matching, change detection, scoring, diff summaries).

The definitions below are a shallow embedding of the Python sources in
`api/services/` (coverage_analyzer.py, ast_parser.py, scoring_model.py,
diff_analyzer.py).  Python floats are modelled exactly as rationals (ℚ),
`round(x, n)` as round-half-to-even at `n` decimal digits, dictionaries
with string keys as association lists, and `str.strip`/`lower`/`in` by
the corresponding character-list operations.  Informational detail
strings (score explanations) are not modelled; no claim depends on them.
-/

/-! ### Python string primitives -/

/-- Substring containment on character lists: Python's `sub in hay`. -/
def listInfixB (n : List Char) : List Char → Bool
  | [] => n.isEmpty
  | h :: hs => n.isPrefixOf (h :: hs) || listInfixB n hs

/-- Python `sub in hay` for strings. -/
def pyIn (sub hay : String) : Bool := listInfixB sub.data hay.data

/-- Python `str.strip()` (whitespace model: `Char.isWhitespace`). -/
def pyStrip (s : String) : String :=
  String.mk
    (((s.data.dropWhile Char.isWhitespace).reverse.dropWhile
        Char.isWhitespace).reverse)

/-- Python `str.lower()` (identity on the CJK text appearing here). -/
def pyLower (s : String) : String := String.mk (s.data.map Char.toLower)

/-- Python `str.replace(c, r)` for one-character patterns. -/
def replaceChar (s : String) (c r : Char) : String :=
  String.mk (s.data.map (fun ch => if ch = c then r else ch))

/-- Split at every character satisfying `p`, keeping empty pieces
(the splitting underlying Python `str.split()` and single-character
`str.split(sep)`). -/
def splitPredAux (p : Char → Bool) : List Char → List Char → List String
  | acc, [] => [String.mk acc.reverse]
  | acc, c :: rest =>
    if p c then String.mk acc.reverse :: splitPredAux p [] rest
    else splitPredAux p (c :: acc) rest

/-- Split a string at every character satisfying `p`. -/
def splitPred (s : String) (p : Char → Bool) : List String :=
  splitPredAux p [] s.data

/-- Python `s.startswith(pre)`. -/
def pyStartsWith (s pre : String) : Bool := pre.data.isPrefixOf s.data

/-- Python `str.rstrip()`: drop trailing whitespace. -/
def pyRstrip (s : String) : String :=
  String.mk ((s.data.reverse.dropWhile Char.isWhitespace).reverse)

/-- Python `str.rstrip(";")`: drop trailing semicolons. -/
def rstripSemi (s : String) : String :=
  String.mk ((s.data.reverse.dropWhile (fun c => c = ';')).reverse)

/-! ### Python float rounding

Python's `round(x, nd)` rounds half to even.  We model floats as exact
rationals, so `round` becomes round-half-even of `x * 10^nd` divided
back. -/

/-- Round a rational to the nearest integer, half to even. -/
def roundHalfEven (q : ℚ) : ℤ :=
  let f : ℤ := ⌊q⌋
  let r : ℚ := q - f
  if r < 1/2 then f
  else if 1/2 < r then f + 1
  else if f % 2 = 0 then f else f + 1

/-- Python `round(q, nd)` on an exact rational. -/
def pyRound (q : ℚ) (nd : Nat) : ℚ :=
  ((roundHalfEven (q * (10 : ℚ) ^ nd) : ℤ) : ℚ) / (10 : ℚ) ^ nd

theorem roundHalfEven_ge_floor (q : ℚ) : ⌊q⌋ ≤ roundHalfEven q := by
  unfold roundHalfEven
  dsimp only
  split
  · exact le_refl _
  · split
    · exact Int.le.intro 1 rfl
    · split
      · exact le_refl _
      · exact Int.le.intro 1 rfl

theorem roundHalfEven_le_ceil (q : ℚ) : roundHalfEven q ≤ ⌈q⌉ := by
  unfold roundHalfEven
  dsimp only
  have hfc : (⌊q⌋ : ℤ) ≤ ⌈q⌉ := Int.floor_le_ceil q
  split
  · exact hfc
  · rename_i hlt
    push_neg at hlt
    have hne : (⌊q⌋ : ℚ) ≠ q := by
      intro h
      rw [← h] at hlt
      simp at hlt
      linarith
    have : ⌊q⌋ + 1 ≤ ⌈q⌉ := by
      have h1 : ⌊q⌋ < ⌈q⌉ := by
        rcases lt_or_eq_of_le hfc with h | h
        · exact h
        · exfalso
          have hqf : (⌊q⌋ : ℚ) ≤ q := Int.floor_le q
          have hqc : q ≤ (⌈q⌉ : ℚ) := Int.le_ceil q
          rw [← h] at hqc
          exact hne (le_antisymm hqf hqc)
      omega
    split
    · exact this
    · split
      · exact hfc
      · exact this

theorem pyRound_nonneg {q : ℚ} (h : 0 ≤ q) (nd : Nat) : 0 ≤ pyRound q nd := by
  unfold pyRound
  have hp : (0:ℚ) < (10 : ℚ) ^ nd := by positivity
  apply div_nonneg _ (le_of_lt hp)
  have h0 : 0 ≤ q * (10 : ℚ) ^ nd := by positivity
  have := roundHalfEven_ge_floor (q * (10 : ℚ) ^ nd)
  have hf : (0:ℤ) ≤ ⌊q * (10 : ℚ) ^ nd⌋ := by
    exact_mod_cast Int.le_floor.mpr (by exact_mod_cast h0)
  exact_mod_cast le_trans hf this

theorem pyRound_le {q : ℚ} {b : ℤ} (h : q ≤ (b : ℚ)) (nd : Nat) :
    pyRound q nd ≤ (b : ℚ) := by
  unfold pyRound
  have hp : (0:ℚ) < (10 : ℚ) ^ nd := by positivity
  rw [div_le_iff₀ hp]
  have hmul : q * (10 : ℚ) ^ nd ≤ (b : ℚ) * (10 : ℚ) ^ nd := by
    exact mul_le_mul_of_nonneg_right h (le_of_lt hp)
  have hceil : ⌈q * (10 : ℚ) ^ nd⌉ ≤ b * (10 : ℤ) ^ nd := by
    apply Int.ceil_le.mpr
    push_cast
    exact hmul
  have := roundHalfEven_le_ceil (q * (10 : ℚ) ^ nd)
  have hz : roundHalfEven (q * (10 : ℚ) ^ nd) ≤ b * (10 : ℤ) ^ nd :=
    le_trans this hceil
  exact_mod_cast hz

theorem pyRound_zero (nd : Nat) : pyRound 0 nd = 0 := by
  unfold pyRound roundHalfEven
  norm_num

/-! ### coverage_analyzer.py — data model -/

/-- A CSV row: ordered field list, Python `dict` with string keys. -/
abbrev Row : Type := List (String × String)

/-- Python `row.get(k, default)`. -/
def rowGet (row : Row) (k default : String) : String :=
  match (List.lookup k (row : List (String × String))) with
  | some v => v
  | none => default

/-- `MappingEntry` dataclass. -/
structure MappingEntry where
  package_name : String
  class_name : String
  method_name : String
  description : String
deriving DecidableEq, Repr

/-- `MappingEntry.full_qualified_name`. -/
def MappingEntry.full_qualified_name (e : MappingEntry) : String :=
  e.package_name ++ "." ++ e.class_name ++ "." ++ e.method_name

/-- `TestCase` dataclass. -/
structure TestCase where
  test_id : String
  test_function : String
  test_steps : String
  expected_result : String
deriving DecidableEq, Repr

/-- One element of `CoverageResult.coverage_details`. -/
structure CoverageDetail where
  method : String
  description : String
  is_covered : Bool
  matched_tests : List String
deriving DecidableEq, Repr

/-- `CoverageResult` dataclass (rate modelled as an exact rational). -/
structure CoverageResult where
  total_changed_methods : Nat := 0
  covered_methods : List String := []
  uncovered_methods : List String := []
  coverage_rate : ℚ := 0
  coverage_details : List CoverageDetail := []
  error : Option String := none
deriving DecidableEq, Repr

/-- The loop body of `parse_mapping_data` on one row: an entry when
package, class and method are all non-empty after stripping; the
description may be empty. -/
def parseMappingRow (row : Row) : Option MappingEntry :=
  let package := pyStrip (rowGet row "包名" (rowGet row "package_name" ""))
  let class_name := pyStrip (rowGet row "类名" (rowGet row "class_name" ""))
  let method := pyStrip (rowGet row "方法名" (rowGet row "method_name" ""))
  let desc := pyStrip (rowGet row "功能描述" (rowGet row "description" ""))
  if package ≠ "" ∧ class_name ≠ "" ∧ method ≠ "" then
    some { package_name := package, class_name := class_name,
           method_name := method, description := desc }
  else none

/-- `parse_mapping_data(rows)`. -/
def parse_mapping_data (rows : List Row) : List MappingEntry :=
  rows.filterMap parseMappingRow

/-- The loop body of `parse_test_cases` on one row: a test case when id
and function are both non-empty after stripping. -/
def parseTestCaseRow (row : Row) : Option TestCase :=
  let test_id := pyStrip (rowGet row "测试用例ID" (rowGet row "test_id" ""))
  let func := pyStrip (rowGet row "测试功能" (rowGet row "test_function" ""))
  let steps := pyStrip (rowGet row "测试步骤" (rowGet row "test_steps" ""))
  let expected := pyStrip (rowGet row "预期结果" (rowGet row "expected_result" ""))
  if test_id ≠ "" ∧ func ≠ "" then
    some { test_id := test_id, test_function := func,
           test_steps := steps, expected_result := expected }
  else none

/-- `parse_test_cases(rows)`. -/
def parse_test_cases (rows : List Row) : List TestCase :=
  rows.filterMap parseTestCaseRow

/-! ### coverage_analyzer.py — analyze_coverage -/

/-- A changed method as passed to `analyze_coverage` (a dict with the
three name fields). -/
structure ChangedMethod where
  package_name : String
  class_name : String
  method_name : String
deriving DecidableEq, Repr

/-- `full_name = f"{pkg}.{cls}.{mtd}"`. -/
def ChangedMethod.fullName (m : ChangedMethod) : String :=
  m.package_name ++ "." ++ m.class_name ++ "." ++ m.method_name

/-- The `mapping_index` dict built by insertion (later entries win),
then `mapping_index.get(full_name, "")`. -/
def mappingLookup (entries : List MappingEntry) (key : String) : String :=
  entries.foldl
    (fun acc e => if e.full_qualified_name = key then e.description else acc) ""

/-- `_fuzzy_match` keyword list: split the description on `,`, `，`,
`/` and whitespace, dropping empty pieces (Python `str.split()`). -/
def fuzzyKeywords (desc : String) : List String :=
  ((splitPred (replaceChar (replaceChar (replaceChar desc ',' ' ') '，' ' ')
      '/' ' ') Char.isWhitespace).filter (fun w => w ≠ ""))

/-- `_fuzzy_match(desc, test_func)`: at least `max(1, len(keywords)//2)`
keywords occur as substrings of the test function text. -/
def fuzzy_match (desc test_func : String) : Bool :=
  let keywords := fuzzyKeywords desc
  if keywords.isEmpty then false
  else decide (keywords.countP (fun kw => pyIn kw test_func) ≥
    max 1 (keywords.length / 2))

/-- One test case matches a description:
`desc_lower in func_lower or func_lower in desc_lower or _fuzzy_match(...)`. -/
def matchesDesc (description : String) (tc : TestCase) : Bool :=
  let desc_lower := pyLower description
  let func_lower := pyLower tc.test_function
  pyIn desc_lower func_lower || pyIn func_lower desc_lower ||
    fuzzy_match desc_lower func_lower

/-- Coverage verdict for a qualified name: description found in the
mapping index and some test case matches it. -/
def coveredName (mapping : List MappingEntry) (tests : List TestCase)
    (full_name : String) : Bool :=
  let description := mappingLookup mapping full_name
  if description = "" then false
  else tests.any (matchesDesc description)

/-- The per-method record appended to `coverage_details`. -/
def mkDetail (mapping : List MappingEntry) (tests : List TestCase)
    (m : ChangedMethod) : CoverageDetail :=
  let full_name := m.fullName
  let description := mappingLookup mapping full_name
  { method := full_name
    description := if description = "" then "无映射描述" else description
    is_covered := coveredName mapping tests full_name
    matched_tests :=
      if description = "" then []
      else (tests.filter (matchesDesc description)).map TestCase.test_id }

/-- `analyze_coverage(changed_methods, mapping_entries, test_cases)`. -/
def analyze_coverage (changed_methods : List ChangedMethod)
    (mapping_entries : List MappingEntry) (test_cases : List TestCase) :
    CoverageResult :=
  if changed_methods.isEmpty then
    { error := some "没有检测到代码改动" }
  else
    let covered := (changed_methods.filter
        (fun m => coveredName mapping_entries test_cases m.fullName)).map
        ChangedMethod.fullName
    let uncovered := (changed_methods.filter
        (fun m => ¬ coveredName mapping_entries test_cases m.fullName)).map
        ChangedMethod.fullName
    let details := changed_methods.map (mkDetail mapping_entries test_cases)
    let total := changed_methods.length
    let coverage_rate : ℚ :=
      if 0 < total then (covered.length : ℚ) / (total : ℚ) else 0
    { total_changed_methods := total
      covered_methods := covered
      uncovered_methods := uncovered
      coverage_rate := pyRound coverage_rate 4
      coverage_details := details }

/-! ### ast_parser.py — change detector core

`extract_changed_methods` parses both sources with the external
`javalang` collaborator and then filters the current methods by identity
key.  The filtering core (source lines 183–194) is embedded here on
method lists, as in spec §4.3. -/

/-- `MethodInfo` dataclass. -/
structure MethodInfo where
  package_name : String
  class_name : String
  method_name : String
  modifiers : List String
  return_type : Option String
  parameters : List String
deriving DecidableEq, Repr

/-- The identity key `f"{pkg}.{cls}.{name}({','.join(params)})"`. -/
def MethodInfo.identityKey (m : MethodInfo) : String :=
  m.package_name ++ "." ++ m.class_name ++ "." ++ m.method_name ++ "(" ++
    String.intercalate "," m.parameters ++ ")"

/-- The change-detection core of `extract_changed_methods`: build the
set of history identity keys, keep current methods whose key is absent
(set membership modelled by list membership). -/
def detectChanged (current_methods history_methods : List MethodInfo) :
    List MethodInfo :=
  let history_signatures := history_methods.map MethodInfo.identityKey
  current_methods.filter
    (fun m => ¬ history_signatures.contains m.identityKey)

/-! ### scoring_model.py -/

/-- Weight configuration `WEIGHTS` (exact rationals). -/
def WEIGHTS_coverage : ℚ := 40 / 100
def WEIGHTS_completeness : ℚ := 30 / 100
def WEIGHTS_clarity : ℚ := 20 / 100
def WEIGHTS_boundary : ℚ := 10 / 100

/-- `DimensionScore` dataclass.  The informational `details` string is
not modelled (no property depends on it). -/
structure DimensionScore where
  dimension : String
  score : ℚ
  weight : ℚ
  weighted_score : ℚ
deriving DecidableEq, Repr

/-- `ScoreResult` dataclass. -/
structure ScoreResult where
  total_score : ℚ := 0
  dimensions : List DimensionScore := []
  grade : String := ""
  summary : String := ""
  error : Option String := none
deriving DecidableEq, Repr

/-- A test-case dict as consumed by the scoring model (field fallback
`tc.get("test_steps", tc.get("测试步骤", ""))` resolved to one field). -/
structure ScoreCase where
  test_function : String
  test_steps : String
  expected_result : String
deriving DecidableEq, Repr

/-- `score_coverage(total_changed_methods, covered_count)`. -/
def score_coverage (total_changed_methods covered_count : Nat) :
    DimensionScore :=
  let raw_score : ℚ :=
    if total_changed_methods = 0 then 100
    else min 100 ((covered_count : ℚ) / (total_changed_methods : ℚ) * 100)
  { dimension := "覆盖范围"
    score := pyRound raw_score 1
    weight := WEIGHTS_coverage
    weighted_score := pyRound (raw_score * WEIGHTS_coverage) 2 }

/-- Count of non-overlapping matches of the pattern `\d+[.、)]`
(decimal digits modelled by `Char.isDigit`).  The scan advances one
character on failure, past the match on success, as `re.findall` does;
fuel equal to the list length always suffices because every step
consumes at least one character. -/
def countNumberedAux : Nat → List Char → Nat
  | 0, _ => 0
  | _, [] => 0
  | fuel + 1, c :: rest =>
    if c.isDigit then
      match rest.dropWhile Char.isDigit with
      | [] => 0
      | sep :: rest3 =>
        if sep = '.' ∨ sep = '、' ∨ sep = ')' then
          countNumberedAux fuel rest3 + 1
        else countNumberedAux fuel rest
    else countNumberedAux fuel rest

/-- `re.findall(r"\d+[\.\、\)]", text)` match count. -/
def countNumbered (l : List Char) : Nat := countNumberedAux l.length l

/-- Count of non-overlapping matches of the pattern `步骤\d+`. -/
def countBuzhouAux : Nat → List Char → Nat
  | 0, _ => 0
  | fuel + 1, '步' :: '骤' :: c :: rest =>
    if c.isDigit then countBuzhouAux fuel (rest.dropWhile Char.isDigit) + 1
    else countBuzhouAux fuel ('骤' :: c :: rest)
  | fuel + 1, _ :: rest => countBuzhouAux fuel rest
  | _, [] => 0

/-- `re.findall(r"步骤\d+", text)` match count. -/
def countBuzhou (l : List Char) : Nat := countBuzhouAux l.length l

/-- `_count_steps(steps_text)`. -/
def count_steps (steps_text : String) : Nat :=
  let count := max (countNumbered steps_text.data) (countBuzhou steps_text.data)
  if count = 0 then
    (splitPred (replaceChar (replaceChar steps_text ';' '\n') '；' '\n')
        (fun c => c = '\n')).countP
      (fun p => decide (pyStrip p ≠ ""))
  else count

/-- The fixed action-verb vocabulary of `score_completeness`. -/
def action_words : List String :=
  ["输入", "点击", "选择", "验证", "检查", "打开", "提交", "确认", "修改", "删除"]

/-- Per-case score of `score_completeness`. -/
def completenessCaseScore (tc : ScoreCase) : ℚ :=
  let steps := tc.test_steps
  if steps = "" then 0
  else
    let step_count := count_steps steps
    let step_points : ℚ :=
      if step_count ≥ 3 then 40
      else if step_count ≥ 2 then 25
      else if step_count ≥ 1 then 10
      else 0
    let action_points : ℚ :=
      if action_words.any (fun w => pyIn w steps) then 30 else 0
    30 + step_points + action_points

/-- `score_completeness(test_cases)`. -/
def score_completeness (test_cases : List ScoreCase) : DimensionScore :=
  if test_cases.isEmpty then
    { dimension := "步骤完整性", score := 0,
      weight := WEIGHTS_completeness, weighted_score := 0 }
  else
    let total_score := (test_cases.map completenessCaseScore).sum
    let avg_score := total_score / (test_cases.length : ℚ)
    { dimension := "步骤完整性"
      score := pyRound avg_score 1
      weight := WEIGHTS_completeness
      weighted_score := pyRound (avg_score * WEIGHTS_completeness) 2 }

/-- The fixed verification vocabulary of `score_clarity`. -/
def verify_words : List String :=
  ["成功", "失败", "显示", "包含", "等于", "不为空",
   "返回", "跳转", "提示", "错误", "正确", "存在"]

/-- Per-case score of `score_clarity`. -/
def clarityCaseScore (tc : ScoreCase) : ℚ :=
  let expected := tc.expected_result
  if expected = "" then 0
  else
    let match_count := verify_words.countP (fun w => pyIn w expected)
    let verify_points : ℚ :=
      if match_count ≥ 2 then 40 else if match_count ≥ 1 then 25 else 0
    let length_points : ℚ :=
      if expected.length ≥ 10 then 20
      else if expected.length ≥ 5 then 10
      else 0
    40 + verify_points + length_points

/-- `score_clarity(test_cases)`. -/
def score_clarity (test_cases : List ScoreCase) : DimensionScore :=
  if test_cases.isEmpty then
    { dimension := "预期结果明确性", score := 0,
      weight := WEIGHTS_clarity, weighted_score := 0 }
  else
    let total_score := (test_cases.map clarityCaseScore).sum
    let avg_score := total_score / (test_cases.length : ℚ)
    { dimension := "预期结果明确性"
      score := pyRound avg_score 1
      weight := WEIGHTS_clarity
      weighted_score := pyRound (avg_score * WEIGHTS_clarity) 2 }

/-- The fixed boundary/exception vocabulary of `score_boundary`. -/
def boundary_words : List String :=
  ["异常", "边界", "空", "null", "为空", "不存在", "超长",
   "超时", "重复", "并发", "负数", "最大", "最小", "特殊字符",
   "无效", "非法", "错误", "失败"]

/-- `score_boundary(test_cases, total_changed_methods)`. -/
def score_boundary (test_cases : List ScoreCase)
    (total_changed_methods : Nat) : DimensionScore :=
  if test_cases.isEmpty then
    { dimension := "边界用例", score := 0,
      weight := WEIGHTS_boundary, weighted_score := 0 }
  else
    let boundary_count := test_cases.countP (fun tc =>
      let combined := tc.test_function ++ " " ++ tc.test_steps ++ " " ++
        tc.expected_result
      boundary_words.any (fun w => pyIn w combined))
    let boundary_ratio : ℚ := (boundary_count : ℚ) / (test_cases.length : ℚ)
    let ratio_points : ℚ :=
      if boundary_ratio ≥ 3/10 then 50
      else if boundary_ratio ≥ 15/100 then 30
      else if boundary_count ≥ 1 then 15
      else 0
    let count_points : ℚ :=
      if 0 < total_changed_methods then
        let ratio : ℚ := (test_cases.length : ℚ) / (total_changed_methods : ℚ)
        if ratio ≥ 3 then 50
        else if ratio ≥ 2 then 35
        else if ratio ≥ 1 then 20
        else 10
      else 25
    let raw_score : ℚ := min 100 (ratio_points + count_points)
    { dimension := "边界用例"
      score := pyRound raw_score 1
      weight := WEIGHTS_boundary
      weighted_score := pyRound (raw_score * WEIGHTS_boundary) 2 }

/-- `_get_grade(score)`. -/
def get_grade (score : ℚ) : String :=
  if score ≥ 90 then "A"
  else if score ≥ 80 then "B"
  else if score ≥ 60 then "C"
  else if score ≥ 40 then "D"
  else "F"

/-- `_get_summary(score, grade)`. -/
def get_summary (grade : String) : String :=
  if grade = "A" then "测试用例质量优秀，覆盖全面且步骤清晰"
  else if grade = "B" then "测试用例质量良好，建议补充部分边界场景"
  else if grade = "C" then "测试用例基本合格，建议加强覆盖范围和步骤细节"
  else if grade = "D" then "测试用例不足，需要大幅补充改进"
  else if grade = "F" then "测试用例严重不足，建议全面重新编写"
  else ""

/-- `calculate_score(total_changed_methods, covered_count, test_cases)`. -/
def calculate_score (total_changed_methods covered_count : Nat)
    (test_cases : List ScoreCase) : ScoreResult :=
  let dim_coverage := score_coverage total_changed_methods covered_count
  let dim_completeness := score_completeness test_cases
  let dim_clarity := score_clarity test_cases
  let dim_boundary := score_boundary test_cases total_changed_methods
  let dimensions := [dim_coverage, dim_completeness, dim_clarity, dim_boundary]
  let total0 := (dimensions.map DimensionScore.weighted_score).sum
  let total := pyRound (min 100 (max 0 total0)) 1
  let grade := get_grade total
  { total_score := total
    dimensions := dimensions
    grade := grade
    summary := get_summary grade }

/-! ### diff_analyzer.py

`compute_diff` delegates the diff itself to the external `difflib`
collaborator (`difflib.unified_diff`), which is not part of this
repository.  Modelled from the spec: §4.2 calls it "a classical
line-level unified diff between the history text and the current text";
the model below follows the classical longest-matching-block scheme
with context 3 and the grouped-opcode output contract (no junk
heuristics).  Everything after the `difflib` call is embedded from
`diff_analyzer.py` itself. -/

/-- Length of the common prefix run of two line lists. -/
def matchLen : List String → List String → Nat
  | x :: xs, y :: ys => if x = y then matchLen xs ys + 1 else 0
  | _, _ => 0

/-- All candidate matches `(i, j, size)` inside the window
`[alo, ahi) × [blo, bhi)`, sizes clipped to the window. -/
def flmCandidates (a b : List String) (alo ahi blo bhi : Nat) :
    List (Nat × Nat × Nat) :=
  (List.range' alo (ahi - alo)).flatMap fun i =>
    (List.range' blo (bhi - blo)).map fun j =>
      (i, j, min (matchLen (a.drop i) (b.drop j)) (min (ahi - i) (bhi - j)))

/-- Longest matching block in the window; among maximal blocks the one
that starts earliest in `a`, then earliest in `b`. -/
def findLongestMatch (a b : List String) (alo ahi blo bhi : Nat) :
    Nat × Nat × Nat :=
  (flmCandidates a b alo ahi blo bhi).foldl
    (fun best c => if best.2.2 < c.2.2 then c else best) (alo, blo, 0)

/-- Recursive matching-block collection (fuel bounds the recursion
depth; window width shrinks at every level, so `ahi + bhi + 1` always
suffices). -/
def matchingBlocksAux :
    Nat → List String → List String → Nat → Nat → Nat → Nat →
    List (Nat × Nat × Nat)
  | 0, _, _, _, _, _, _ => []
  | fuel + 1, a, b, alo, ahi, blo, bhi =>
    let m := findLongestMatch a b alo ahi blo bhi
    if 0 < m.2.2 then
      matchingBlocksAux fuel a b alo m.1 blo m.2.1 ++ [m] ++
        matchingBlocksAux fuel a b (m.1 + m.2.2) ahi (m.2.1 + m.2.2) bhi
    else []

/-- `SequenceMatcher.get_matching_blocks` with the terminating sentinel. -/
def matchingBlocks (a b : List String) : List (Nat × Nat × Nat) :=
  matchingBlocksAux (a.length + b.length + 1) a b 0 a.length 0 b.length ++
    [(a.length, b.length, 0)]

/-- Opcode tags of `SequenceMatcher.get_opcodes`. -/
inductive DiffTag where
  | replace
  | delete
  | insert
  | equal
deriving DecidableEq, Repr

/-- One opcode `(tag, i1, i2, j1, j2)`. -/
structure Opcode where
  tag : DiffTag
  i1 : Nat
  i2 : Nat
  j1 : Nat
  j2 : Nat
deriving DecidableEq, Repr

/-- Opcode generation from matching blocks, walking a cursor `(i, j)`. -/
def opcodesAux : Nat → Nat → List (Nat × Nat × Nat) → List Opcode
  | _, _, [] => []
  | i, j, (ai, bj, size) :: rest =>
    let pre : List Opcode :=
      if i < ai ∧ j < bj then [⟨.replace, i, ai, j, bj⟩]
      else if i < ai then [⟨.delete, i, ai, j, bj⟩]
      else if j < bj then [⟨.insert, i, ai, j, bj⟩]
      else []
    let eqs : List Opcode :=
      if 0 < size then [⟨.equal, ai, ai + size, bj, bj + size⟩] else []
    pre ++ eqs ++ opcodesAux (ai + size) (bj + size) rest

/-- `SequenceMatcher.get_opcodes`. -/
def getOpcodes (a b : List String) : List Opcode :=
  opcodesAux 0 0 (matchingBlocks a b)

/-- Trim a leading `equal` opcode to at most 3 lines of context. -/
def adjustFirst : List Opcode → List Opcode
  | [] => []
  | c :: rest =>
    if c.tag = .equal then
      ⟨.equal, max c.i1 (c.i2 - 3), c.i2, max c.j1 (c.j2 - 3), c.j2⟩ :: rest
    else c :: rest

/-- Trim a trailing `equal` opcode to at most 3 lines of context. -/
def adjustLast (codes : List Opcode) : List Opcode :=
  match codes.getLast? with
  | none => []
  | some c =>
    if c.tag = .equal then
      codes.dropLast ++
        [⟨.equal, c.i1, min c.i2 (c.i1 + 3), c.j1, min c.j2 (c.j1 + 3)⟩]
    else codes

/-- One step of the grouping loop of `get_grouped_opcodes`: a large
`equal` range closes the current group and opens the next one. -/
def groupStep (acc : List (List Opcode) × List Opcode) (c : Opcode) :
    List (List Opcode) × List Opcode :=
  if c.tag = .equal ∧ 6 < c.i2 - c.i1 then
    (acc.1 ++
      [acc.2 ++ [⟨.equal, c.i1, min c.i2 (c.i1 + 3), c.j1, min c.j2 (c.j1 + 3)⟩]],
     [⟨.equal, max c.i1 (c.i2 - 3), c.i2, max c.j1 (c.j2 - 3), c.j2⟩])
  else (acc.1, acc.2 ++ [c])

/-- `SequenceMatcher.get_grouped_opcodes(3)`: a trailing group that is a
single `equal` opcode is not emitted. -/
def getGroupedOpcodes (codes0 : List Opcode) : List (List Opcode) :=
  let codes1 := if codes0.isEmpty then [⟨.equal, 0, 1, 0, 1⟩] else codes0
  let codes3 := adjustLast (adjustFirst codes1)
  let p := codes3.foldl groupStep ([], [])
  let single_equal : Bool :=
    match p.2 with
    | [c] => decide (c.tag = DiffTag.equal)
    | _ => false
  if p.2.isEmpty || single_equal then p.1 else p.1 ++ [p.2]

/-- Python slice `l[i:j]`. -/
def pySlice (l : List String) (i j : Nat) : List String := (l.take j).drop i

/-- `difflib._format_range_unified`. -/
def formatRangeUnified (start stop : Nat) : String :=
  let beginning := start + 1
  let length := stop - start
  if length = 1 then toString beginning
  else toString (if length = 0 then start else beginning) ++ "," ++
    toString length

/-- `difflib.unified_diff(a, b, fromfile, tofile, lineterm="")` as the
list of yielded lines. -/
def unified_diff (a b : List String) (fromfile tofile : String) :
    List String :=
  let groups := getGroupedOpcodes (getOpcodes a b)
  groups.enum.flatMap fun p =>
    (if p.1 = 0 then ["--- " ++ fromfile, "+++ " ++ tofile] else []) ++
    (match p.2.head?, p.2.getLast? with
     | some f, some l =>
       ["@@ -" ++ formatRangeUnified f.i1 l.i2 ++ " +" ++
         formatRangeUnified f.j1 l.j2 ++ " @@"]
     | _, _ => []) ++
    p.2.flatMap fun c =>
      if c.tag = .equal then (pySlice a c.i1 c.i2).map (fun line => " " ++ line)
      else
        (if c.tag = .replace ∨ c.tag = .delete then
          (pySlice a c.i1 c.i2).map (fun line => "-" ++ line)
        else []) ++
        (if c.tag = .replace ∨ c.tag = .insert then
          (pySlice b c.j1 c.j2).map (fun line => "+" ++ line)
        else [])

/-- Python `str.splitlines(keepends=True)` (line boundaries modelled:
`\r\n`, `\r`, `\n`). -/
def splitlinesKeependsAux : List Char → List Char → List String
  | acc, [] => if acc.isEmpty then [] else [String.mk acc.reverse]
  | acc, '\r' :: '\n' :: rest =>
    String.mk (acc.reverse ++ ['\r', '\n']) :: splitlinesKeependsAux [] rest
  | acc, '\r' :: rest =>
    String.mk (acc.reverse ++ ['\r']) :: splitlinesKeependsAux [] rest
  | acc, '\n' :: rest =>
    String.mk (acc.reverse ++ ['\n']) :: splitlinesKeependsAux [] rest
  | acc, c :: rest => splitlinesKeependsAux (c :: acc) rest

/-- `code.splitlines(keepends=True)`. -/
def splitlinesKeepends (s : String) : List String :=
  splitlinesKeependsAux [] s.data

/-- The line scan of `extract_package_path`: first `package` declaration
with a non-empty path wins. -/
def findPackagePath : List String → String
  | [] => "unknown"
  | line :: rest =>
    let stripped := pyStrip line
    if pyStartsWith stripped "package " then
      let path := pyStrip (rstripSemi (stripped.drop 8))
      if path ≠ "" then path else findPackagePath rest
    else findPackagePath rest

/-- `extract_package_path(code)`. -/
def extract_package_path (code : String) : String :=
  findPackagePath (splitPred code (fun c => c = '\n'))

/-- `DiffResult` dataclass. -/
structure DiffResult where
  package_path : String
  added_lines : List String := []
  removed_lines : List String := []
  changed_lines : List String := []
deriving DecidableEq, Repr

/-- The classification loop of `compute_diff` over the diff lines. -/
def classifyDiffLines (diff : List String) :
    List String × List String × List String :=
  diff.foldl
    (fun acc line =>
      if pyStartsWith line "+++" || pyStartsWith line "---" ||
          pyStartsWith line "@@" then
        (acc.1, acc.2.1, acc.2.2 ++ [line])
      else if pyStartsWith line "+" then
        (acc.1 ++ [line.drop 1], acc.2.1, acc.2.2 ++ [line])
      else if pyStartsWith line "-" then
        (acc.1, acc.2.1 ++ [line.drop 1], acc.2.2 ++ [line])
      else acc)
    ([], [], [])

/-- `compute_diff(current_code, history_code)`. -/
def compute_diff (current_code history_code : String) : DiffResult :=
  let package_path := extract_package_path current_code
  let current_lines := splitlinesKeepends current_code
  let history_lines := splitlinesKeepends history_code
  let diff := unified_diff history_lines current_lines "history" "current"
  let c := classifyDiffLines diff
  { package_path := package_path
    added_lines := c.1
    removed_lines := c.2.1
    changed_lines := c.2.2 }

/-- `AnalysisResult` dataclass. -/
structure AnalysisResult where
  diffs : List DiffResult := []
  total_added : Nat := 0
  total_removed : Nat := 0
  error : Option String := none
deriving DecidableEq, Repr

/-- The per-file block produced inside `format_diff_summary` for file
number `idx` (1-based). -/
def formatFileSection (idx : Nat) (diff : DiffResult) : List String :=
  ["### 文件 " ++ toString idx ++ ": " ++ diff.package_path,
   "  新增 " ++ toString diff.added_lines.length ++ " 行, 删除 " ++
     toString diff.removed_lines.length ++ " 行"] ++
  (if diff.added_lines.isEmpty then []
   else
    ["  新增内容:"] ++
    (diff.added_lines.take 10).map (fun line => "    + " ++ pyRstrip line) ++
    (if 10 < diff.added_lines.length then
      ["    ... 还有 " ++ toString (diff.added_lines.length - 10) ++ " 行"]
     else [])) ++
  (if diff.removed_lines.isEmpty then []
   else
    ["  删除内容:"] ++
    (diff.removed_lines.take 10).map (fun line => "    - " ++ pyRstrip line) ++
    (if 10 < diff.removed_lines.length then
      ["    ... 还有 " ++ toString (diff.removed_lines.length - 10) ++ " 行"]
     else [])) ++
  [""]

/-- The line list joined by `format_diff_summary` in the non-error case. -/
def formatDiffSummaryLines (result : AnalysisResult) : List String :=
  ["共检测到 " ++ toString result.diffs.length ++ " 个代码文件变更",
   "总新增 " ++ toString result.total_added ++ " 行，总删除 " ++
     toString result.total_removed ++ " 行",
   ""] ++
  result.diffs.enum.flatMap (fun p => formatFileSection (p.1 + 1) p.2)

/-- `format_diff_summary(result)`. -/
def format_diff_summary (result : AnalysisResult) : String :=
  match result.error with
  | some e => "分析错误: " ++ e
  | none => String.intercalate "\n" (formatDiffSummaryLines result)

/-! ### Supporting lemmas -/

theorem length_filter_add_length_filter_not {α : Type} (p : α → Bool)
    (l : List α) :
    (l.filter p).length + (l.filter (fun x => ¬ p x)).length = l.length := by
  induction l with
  | nil => rfl
  | cons a as ih =>
    by_cases h : p a
    · simp [List.filter, h, ← ih]
      omega
    · simp [List.filter, h, ← ih]
      omega

theorem foldl_best_const (l : List (Nat × Nat × Nat)) (b : Nat × Nat × Nat)
    (h : ∀ c ∈ l, c.2.2 ≤ b.2.2) :
    l.foldl (fun best c => if best.2.2 < c.2.2 then c else best) b = b := by
  induction l with
  | nil => rfl
  | cons c cs ih =>
    have hc : c.2.2 ≤ b.2.2 := h c (List.mem_cons_self c cs)
    simp only [List.foldl_cons]
    rw [if_neg (by omega)]
    exact ih (fun d hd => h d (List.mem_cons_of_mem c hd))

/-! ### Claims -/

/-- C2: for every mapping list and test-case list, `analyze_coverage`
with an empty changed-methods list returns a result carrying the error
"没有检测到代码改动" (no code changes detected) and no coverage data:
empty covered/uncovered lists, empty details, rate 0, total 0 — not a
success result with a coverage rate of 0 or 1. -/
theorem claim_C2 (mapping_entries : List MappingEntry)
    (test_cases : List TestCase) :
    (analyze_coverage [] mapping_entries test_cases).error =
      some "没有检测到代码改动" ∧
    (analyze_coverage [] mapping_entries test_cases).covered_methods = [] ∧
    (analyze_coverage [] mapping_entries test_cases).uncovered_methods = [] ∧
    (analyze_coverage [] mapping_entries test_cases).coverage_details = [] ∧
    (analyze_coverage [] mapping_entries test_cases).coverage_rate = 0 ∧
    (analyze_coverage [] mapping_entries test_cases).total_changed_methods = 0 :=
  ⟨rfl, rfl, rfl, rfl, rfl, rfl⟩

/-- C4: the change-detection core returns exactly the current methods
whose identity key is absent from the history keys, in original order
(a sublist of `currentMethods`), and its output is disjoint from every
method whose identity key appears in `historyMethods`. -/
theorem claim_C4 (current_methods history_methods : List MethodInfo) :
    (∀ m : MethodInfo,
      m ∈ detectChanged current_methods history_methods ↔
        (m ∈ current_methods ∧
          ∀ h ∈ history_methods, m.identityKey ≠ h.identityKey)) ∧
    (detectChanged current_methods history_methods).Sublist current_methods := by
  constructor
  · intro m
    unfold detectChanged
    simp only [List.mem_filter, decide_eq_true_eq]
    constructor
    · rintro ⟨hmem, hnot⟩
      refine ⟨hmem, fun h hh heq => hnot ?_⟩
      have : m.identityKey ∈ history_methods.map MethodInfo.identityKey :=
        List.mem_map.mpr ⟨h, hh, heq.symm⟩
      simpa [List.elem_iff] using this
    · rintro ⟨hmem, hdisj⟩
      refine ⟨hmem, fun hcont => ?_⟩
      have : m.identityKey ∈ history_methods.map MethodInfo.identityKey := by
        simpa [List.elem_iff] using hcont
      obtain ⟨h, hh, heq⟩ := List.mem_map.mp this
      exact hdisj h hh heq.symm
  · exact List.filter_sublist _

theorem analyze_coverage_ne_nil (changed : List ChangedMethod)
    (mapping : List MappingEntry) (tests : List TestCase)
    (h : changed ≠ []) :
    analyze_coverage changed mapping tests =
      { total_changed_methods := changed.length
        covered_methods := (changed.filter
            (fun m => coveredName mapping tests m.fullName)).map
            ChangedMethod.fullName
        uncovered_methods := (changed.filter
            (fun m => ¬ coveredName mapping tests m.fullName)).map
            ChangedMethod.fullName
        coverage_rate := pyRound
          (((changed.filter
              (fun m => coveredName mapping tests m.fullName)).length : ℚ) /
            (changed.length : ℚ)) 4
        coverage_details := changed.map (mkDetail mapping tests)
        error := none } := by
  unfold analyze_coverage
  rw [if_neg (by simpa [List.isEmpty_iff] using h)]
  have hlen : 0 < changed.length := List.length_pos.mpr h
  simp [List.length_map, if_pos hlen]

theorem mem_covered_iff (changed : List ChangedMethod)
    (mapping : List MappingEntry) (tests : List TestCase)
    (h : changed ≠ []) (name : String) :
    name ∈ (analyze_coverage changed mapping tests).covered_methods ↔
      ((∃ m ∈ changed, ChangedMethod.fullName m = name) ∧
        coveredName mapping tests name = true) := by
  rw [analyze_coverage_ne_nil changed mapping tests h]
  simp only [List.mem_map, List.mem_filter]
  constructor
  · rintro ⟨m, ⟨hm, hcov⟩, rfl⟩
    exact ⟨⟨m, hm, rfl⟩, hcov⟩
  · rintro ⟨⟨m, hm, rfl⟩, hcov⟩
    exact ⟨m, ⟨hm, hcov⟩, rfl⟩

theorem mem_uncovered_iff (changed : List ChangedMethod)
    (mapping : List MappingEntry) (tests : List TestCase)
    (h : changed ≠ []) (name : String) :
    name ∈ (analyze_coverage changed mapping tests).uncovered_methods ↔
      ((∃ m ∈ changed, ChangedMethod.fullName m = name) ∧
        coveredName mapping tests name = false) := by
  rw [analyze_coverage_ne_nil changed mapping tests h]
  simp only [List.mem_map, List.mem_filter, decide_eq_true_eq,
    Bool.not_eq_true]
  constructor
  · rintro ⟨m, ⟨hm, hcov⟩, rfl⟩
    exact ⟨⟨m, hm, rfl⟩, hcov⟩
  · rintro ⟨⟨m, hm, rfl⟩, hcov⟩
    exact ⟨m, ⟨hm, hcov⟩, rfl⟩

theorem coveredName_true_iff (mapping : List MappingEntry)
    (tests : List TestCase) (name : String)
    (hdesc : mappingLookup mapping name ≠ "") :
    coveredName mapping tests name = true ↔
      ∃ tc ∈ tests, matchesDesc (mappingLookup mapping name) tc = true := by
  unfold coveredName
  simp only []
  rw [if_neg hdesc]
  simp [List.any_eq_true]

theorem matchesDesc_true_iff (d : String) (tc : TestCase) :
    matchesDesc d tc = true ↔
      (pyIn (pyLower d) (pyLower tc.test_function) = true ∨
       pyIn (pyLower tc.test_function) (pyLower d) = true ∨
       (fuzzyKeywords (pyLower d) ≠ [] ∧
        (fuzzyKeywords (pyLower d)).countP
            (fun kw => pyIn kw (pyLower tc.test_function)) ≥
          max 1 ((fuzzyKeywords (pyLower d)).length / 2))) := by
  unfold matchesDesc fuzzy_match
  by_cases hk : (fuzzyKeywords (pyLower d)).isEmpty
  · have hnil : fuzzyKeywords (pyLower d) = [] := by
      simpa [List.isEmpty_iff] using hk
    simp [hk, hnil, Bool.or_eq_true]
  · have hnil : fuzzyKeywords (pyLower d) ≠ [] := by
      simpa [List.isEmpty_iff] using hk
    simp [hk, hnil, Bool.or_eq_true, ge_iff_le]
    tauto

/-- C1: for every changed method with a non-empty mapped description,
the method is marked covered iff some test case's function text
fuzzy-matches the description, where the fuzzy match is: (a) the
lower-cased description is a substring of the lower-cased function
text, or (b) the reverse containment holds, or (c) the description's
keywords (split on `,`, `，`, `/` and whitespace) hit the lower-cased
function text at least `max(1, ⌊k/2⌋)` times. -/
theorem claim_C1 (changed : List ChangedMethod) (mapping : List MappingEntry)
    (tests : List TestCase) (m : ChangedMethod) (hm : m ∈ changed)
    (hdesc : mappingLookup mapping m.fullName ≠ "") :
    m.fullName ∈ (analyze_coverage changed mapping tests).covered_methods ↔
      ∃ tc ∈ tests,
        (pyIn (pyLower (mappingLookup mapping m.fullName))
            (pyLower tc.test_function) = true ∨
         pyIn (pyLower tc.test_function)
            (pyLower (mappingLookup mapping m.fullName)) = true ∨
         (fuzzyKeywords (pyLower (mappingLookup mapping m.fullName)) ≠ [] ∧
          (fuzzyKeywords (pyLower (mappingLookup mapping m.fullName))).countP
              (fun kw => pyIn kw (pyLower tc.test_function)) ≥
            max 1 ((fuzzyKeywords
              (pyLower (mappingLookup mapping m.fullName))).length / 2))) := by
  have hne : changed ≠ [] := List.ne_nil_of_mem hm
  rw [mem_covered_iff changed mapping tests hne m.fullName]
  rw [coveredName_true_iff mapping tests m.fullName hdesc]
  constructor
  · rintro ⟨-, tc, htc, hmatch⟩
    exact ⟨tc, htc, (matchesDesc_true_iff _ tc).mp hmatch⟩
  · rintro ⟨tc, htc, hmatch⟩
    exact ⟨⟨m, hm, rfl⟩, tc, htc, (matchesDesc_true_iff _ tc).mpr hmatch⟩

/-- Witness for C1 at the spec's scenario: mapping entry
`com.example.user.UserService.createUser → 创建用户` and test case
`TC001` with function `创建用户`. -/
theorem claim_C1_witness :
    (⟨"com.example.user", "UserService", "createUser"⟩ : ChangedMethod) ∈
      [(⟨"com.example.user", "UserService", "createUser"⟩ : ChangedMethod)] ∧
    mappingLookup
        [⟨"com.example.user", "UserService", "createUser", "创建用户"⟩]
        (ChangedMethod.fullName
          ⟨"com.example.user", "UserService", "createUser"⟩) ≠ "" ∧
    ((ChangedMethod.fullName
        ⟨"com.example.user", "UserService", "createUser"⟩) ∈
      (analyze_coverage
        [⟨"com.example.user", "UserService", "createUser"⟩]
        [⟨"com.example.user", "UserService", "createUser", "创建用户"⟩]
        [⟨"TC001", "创建用户", "", ""⟩]).covered_methods ↔
      ∃ tc ∈ [(⟨"TC001", "创建用户", "", ""⟩ : TestCase)],
        (pyIn (pyLower (mappingLookup
            [⟨"com.example.user", "UserService", "createUser", "创建用户"⟩]
            (ChangedMethod.fullName
              ⟨"com.example.user", "UserService", "createUser"⟩)))
            (pyLower tc.test_function) = true ∨
         pyIn (pyLower tc.test_function)
            (pyLower (mappingLookup
              [⟨"com.example.user", "UserService", "createUser", "创建用户"⟩]
              (ChangedMethod.fullName
                ⟨"com.example.user", "UserService", "createUser"⟩))) = true ∨
         (fuzzyKeywords (pyLower (mappingLookup
              [⟨"com.example.user", "UserService", "createUser", "创建用户"⟩]
              (ChangedMethod.fullName
                ⟨"com.example.user", "UserService", "createUser"⟩))) ≠ [] ∧
          (fuzzyKeywords (pyLower (mappingLookup
              [⟨"com.example.user", "UserService", "createUser", "创建用户"⟩]
              (ChangedMethod.fullName
                ⟨"com.example.user", "UserService", "createUser"⟩)))).countP
              (fun kw => pyIn kw (pyLower tc.test_function)) ≥
            max 1 ((fuzzyKeywords (pyLower (mappingLookup
              [⟨"com.example.user", "UserService", "createUser", "创建用户"⟩]
              (ChangedMethod.fullName
                ⟨"com.example.user", "UserService", "createUser"⟩)))).length
              / 2)))) :=
  ⟨by decide, by decide,
    claim_C1 _ _ _ _ (by decide) (by decide)⟩

/-- C3: for a non-empty changed-methods list, covered and uncovered
names together are exactly the qualified names of the changed methods,
no name is in both lists, the two lengths sum to the number of changed
methods, `total_changed_methods` is that number, and the coverage rate
is `|covered| / total` rounded to 4 decimal places, hence in `[0, 1]`. -/
theorem claim_C3 (changed : List ChangedMethod) (mapping : List MappingEntry)
    (tests : List TestCase) (h : changed ≠ []) :
    (∀ name : String,
      (name ∈ (analyze_coverage changed mapping tests).covered_methods ∨
       name ∈ (analyze_coverage changed mapping tests).uncovered_methods) ↔
        name ∈ changed.map ChangedMethod.fullName) ∧
    (∀ name : String,
      ¬ (name ∈ (analyze_coverage changed mapping tests).covered_methods ∧
         name ∈ (analyze_coverage changed mapping tests).uncovered_methods)) ∧
    (analyze_coverage changed mapping tests).covered_methods.length +
      (analyze_coverage changed mapping tests).uncovered_methods.length =
        changed.length ∧
    (analyze_coverage changed mapping tests).total_changed_methods =
      changed.length ∧
    (analyze_coverage changed mapping tests).coverage_rate =
      pyRound
        (((analyze_coverage changed mapping tests).covered_methods.length : ℚ) /
          ((analyze_coverage changed mapping tests).total_changed_methods : ℚ))
        4 ∧
    0 ≤ (analyze_coverage changed mapping tests).coverage_rate ∧
    (analyze_coverage changed mapping tests).coverage_rate ≤ 1 := by
  refine ⟨?_, ?_, ?_, ?_, ?_, ?_, ?_⟩
  · intro name
    rw [mem_covered_iff changed mapping tests h name,
      mem_uncovered_iff changed mapping tests h name]
    constructor
    · rintro (⟨⟨m, hm, rfl⟩, -⟩ | ⟨⟨m, hm, rfl⟩, -⟩) <;>
        exact List.mem_map.mpr ⟨m, hm, rfl⟩
    · intro hmem
      obtain ⟨m, hm, rfl⟩ := List.mem_map.mp hmem
      cases hcov : coveredName mapping tests m.fullName
      · exact Or.inr ⟨⟨m, hm, rfl⟩, rfl⟩
      · exact Or.inl ⟨⟨m, hm, rfl⟩, rfl⟩
  · intro name
    rw [mem_covered_iff changed mapping tests h name,
      mem_uncovered_iff changed mapping tests h name]
    rintro ⟨⟨-, htrue⟩, ⟨-, hfalse⟩⟩
    rw [htrue] at hfalse
    simp at hfalse
  · rw [analyze_coverage_ne_nil changed mapping tests h]
    simp only [List.length_map]
    exact length_filter_add_length_filter_not _ changed
  · rw [analyze_coverage_ne_nil changed mapping tests h]
  · rw [analyze_coverage_ne_nil changed mapping tests h]
    simp [List.length_map]
  · rw [analyze_coverage_ne_nil changed mapping tests h]
    exact pyRound_nonneg (by positivity) 4
  · rw [analyze_coverage_ne_nil changed mapping tests h]
    have hlen : 0 < changed.length := List.length_pos.mpr h
    have hle : ((changed.filter
        (fun m => coveredName mapping tests m.fullName)).length : ℚ) /
        (changed.length : ℚ) ≤ ((1 : ℤ) : ℚ) := by
      push_cast
      rw [div_le_one (by exact_mod_cast hlen)]
      exact_mod_cast List.length_filter_le _ changed
    simpa using pyRound_le hle 4

/-- Witness for C3 at one covered and one unmapped method. -/
theorem claim_C3_witness :
    ([⟨"com.example.user", "UserService", "createUser"⟩,
      ⟨"com.example.user", "UserService", "deleteUser"⟩] :
        List ChangedMethod) ≠ [] ∧
    (analyze_coverage
      [⟨"com.example.user", "UserService", "createUser"⟩,
       ⟨"com.example.user", "UserService", "deleteUser"⟩]
      [⟨"com.example.user", "UserService", "createUser", "创建用户"⟩]
      [⟨"TC001", "创建用户", "", ""⟩]).total_changed_methods = 2 :=
  ⟨by decide,
    ((claim_C3
      [⟨"com.example.user", "UserService", "createUser"⟩,
       ⟨"com.example.user", "UserService", "deleteUser"⟩]
      [⟨"com.example.user", "UserService", "createUser", "创建用户"⟩]
      [⟨"TC001", "创建用户", "", ""⟩] (by decide)).2.2.2.1).trans (by decide)⟩

/-- C6 counterexample: with mapping entry
`com.example.user.UserService.createUser → 创建用户` and changed method
`com.example.user.UserService.deleteUser` (no mapping entry), the
method's detail record carries the placeholder description
`无映射描述`, not the empty string the claim states. -/
theorem claim_C6_counterexample :
    (analyze_coverage
      [⟨"com.example.user", "UserService", "deleteUser"⟩]
      [⟨"com.example.user", "UserService", "createUser", "创建用户"⟩]
      [⟨"TC001", "创建用户", "", ""⟩]).coverage_details =
      [{ method := "com.example.user.UserService.deleteUser",
         description := "无映射描述",
         is_covered := false,
         matched_tests := [] }] ∧
    ("无映射描述" : String) ≠ "" := ⟨by decide, by decide⟩

/-- C6 amended: for a changed method whose qualified name has no
mapping entry, the looked-up description is the empty string, the
method's detail record has `is_covered = false`, the placeholder
description `无映射描述` (not `""`), and an empty matched-test list,
and the qualified name appears in `uncovered_methods`. -/
theorem claim_C6_amended (changed : List ChangedMethod)
    (mapping : List MappingEntry) (tests : List TestCase)
    (m : ChangedMethod) (hm : m ∈ changed)
    (hdesc : mappingLookup mapping m.fullName = "") :
    mkDetail mapping tests m =
      { method := m.fullName, description := "无映射描述",
        is_covered := false, matched_tests := [] } ∧
    mkDetail mapping tests m ∈
      (analyze_coverage changed mapping tests).coverage_details ∧
    m.fullName ∈ (analyze_coverage changed mapping tests).uncovered_methods := by
  have hne : changed ≠ [] := List.ne_nil_of_mem hm
  have hfalse : coveredName mapping tests m.fullName = false := by
    unfold coveredName
    simp [hdesc]
  refine ⟨?_, ?_, ?_⟩
  · unfold mkDetail
    simp [hdesc, hfalse]
  · rw [analyze_coverage_ne_nil changed mapping tests hne]
    exact List.mem_map.mpr ⟨m, hm, rfl⟩
  · rw [mem_uncovered_iff changed mapping tests hne m.fullName]
    exact ⟨⟨m, hm, rfl⟩, hfalse⟩

/-- Witness for the amended C6 at the counterexample input. -/
theorem claim_C6_amended_witness :
    ((⟨"com.example.user", "UserService", "deleteUser"⟩ : ChangedMethod) ∈
      [(⟨"com.example.user", "UserService", "deleteUser"⟩ : ChangedMethod)]) ∧
    mappingLookup
      [⟨"com.example.user", "UserService", "createUser", "创建用户"⟩]
      (ChangedMethod.fullName
        ⟨"com.example.user", "UserService", "deleteUser"⟩) = "" ∧
    (ChangedMethod.fullName
        ⟨"com.example.user", "UserService", "deleteUser"⟩) ∈
      (analyze_coverage
        [⟨"com.example.user", "UserService", "deleteUser"⟩]
        [⟨"com.example.user", "UserService", "createUser", "创建用户"⟩]
        [⟨"TC001", "创建用户", "", ""⟩]).uncovered_methods :=
  ⟨by decide, by decide,
    (claim_C6_amended _ _ _ _ (by decide) (by decide)).2.2⟩

/-- C10: `parse_mapping_data` yields an entry for a row iff the row's
package, class and method fields are non-empty after trimming (under
either header scheme); the description may be empty and the entry is
still retained; and a method whose mapping lookup yields an empty
description is never judged covered — its name lands in
`uncovered_methods`. -/
theorem claim_C10 (rows : List Row) (row : Row) (hrow : row ∈ rows)
    (changed : List ChangedMethod) (mapping : List MappingEntry)
    (tests : List TestCase) (m : ChangedMethod) (hm : m ∈ changed)
    (hempty : mappingLookup mapping m.fullName = "") :
    ((∃ e ∈ parse_mapping_data rows, parseMappingRow row = some e) ↔
      (pyStrip (rowGet row "包名" (rowGet row "package_name" "")) ≠ "" ∧
       pyStrip (rowGet row "类名" (rowGet row "class_name" "")) ≠ "" ∧
       pyStrip (rowGet row "方法名" (rowGet row "method_name" "")) ≠ "")) ∧
    (∀ e ∈ parse_mapping_data rows,
      ∃ r ∈ rows, parseMappingRow r = some e) ∧
    m.fullName ∉ (analyze_coverage changed mapping tests).covered_methods ∧
    m.fullName ∈ (analyze_coverage changed mapping tests).uncovered_methods := by
  have hne : changed ≠ [] := List.ne_nil_of_mem hm
  have hfalse : coveredName mapping tests m.fullName = false := by
    unfold coveredName
    simp [hempty]
  refine ⟨?_, ?_, ?_, ?_⟩
  · constructor
    · rintro ⟨e, -, hsome⟩
      unfold parseMappingRow at hsome
      by_cases hc : pyStrip (rowGet row "包名" (rowGet row "package_name" "")) ≠ "" ∧
          pyStrip (rowGet row "类名" (rowGet row "class_name" "")) ≠ "" ∧
          pyStrip (rowGet row "方法名" (rowGet row "method_name" "")) ≠ ""
      · exact hc
      · rw [if_neg hc] at hsome
        exact absurd hsome (by simp)
    · intro hc
      refine ⟨{ package_name := pyStrip (rowGet row "包名" (rowGet row "package_name" ""))
                class_name := pyStrip (rowGet row "类名" (rowGet row "class_name" ""))
                method_name := pyStrip (rowGet row "方法名" (rowGet row "method_name" ""))
                description := pyStrip (rowGet row "功能描述" (rowGet row "description" "")) },
              ?_, ?_⟩
      · exact List.mem_filterMap.mpr ⟨row, hrow, by unfold parseMappingRow; rw [if_pos hc]⟩
      · unfold parseMappingRow
        rw [if_pos hc]
  · intro e he
    exact List.mem_filterMap.mp he
  · rw [mem_covered_iff changed mapping tests hne m.fullName]
    rintro ⟨-, htrue⟩
    rw [hfalse] at htrue
    simp at htrue
  · rw [mem_uncovered_iff changed mapping tests hne m.fullName]
    exact ⟨⟨m, hm, rfl⟩, hfalse⟩

/-- Witness for C10: a row with an empty description is retained, and a
method mapped to the empty description is uncovered. -/
theorem claim_C10_witness :
    (([("包名", "com.example"), ("类名", "Svc"), ("方法名", "run"),
       ("功能描述", "")] : Row) ∈
      ([[("包名", "com.example"), ("类名", "Svc"), ("方法名", "run"),
         ("功能描述", "")]] : List Row)) ∧
    ((⟨"com.example", "Svc", "run"⟩ : ChangedMethod) ∈
      [(⟨"com.example", "Svc", "run"⟩ : ChangedMethod)]) ∧
    mappingLookup [⟨"com.example", "Svc", "run", ""⟩]
      (ChangedMethod.fullName ⟨"com.example", "Svc", "run"⟩) = "" ∧
    (∃ e ∈ parse_mapping_data
        [[("包名", "com.example"), ("类名", "Svc"), ("方法名", "run"),
          ("功能描述", "")]],
      parseMappingRow
        [("包名", "com.example"), ("类名", "Svc"), ("方法名", "run"),
         ("功能描述", "")] = some e) ∧
    (ChangedMethod.fullName ⟨"com.example", "Svc", "run"⟩) ∈
      (analyze_coverage [⟨"com.example", "Svc", "run"⟩]
        [⟨"com.example", "Svc", "run", ""⟩]
        [⟨"TC001", "run", "", ""⟩]).uncovered_methods := by
  have h := claim_C10
    [[("包名", "com.example"), ("类名", "Svc"), ("方法名", "run"),
      ("功能描述", "")]]
    [("包名", "com.example"), ("类名", "Svc"), ("方法名", "run"),
     ("功能描述", "")]
    (by decide)
    [⟨"com.example", "Svc", "run"⟩]
    [⟨"com.example", "Svc", "run", ""⟩]
    [⟨"TC001", "run", "", ""⟩]
    ⟨"com.example", "Svc", "run"⟩
    (by decide) (by decide)
  exact ⟨by decide, by decide, by decide, h.1.mpr (by decide), h.2.2.2⟩

/-- C8 counterexample: a row whose id is empty but whose function field
is non-empty yields no test case, contradicting the claim that only
rows lacking *both* fields are dropped (the repository's own test
`test_skip_no_id` expects exactly this drop). -/
theorem claim_C8_counterexample :
    parse_test_cases
      [[("测试用例ID", ""), ("测试功能", "test"), ("测试步骤", ""),
        ("预期结果", "")]] = [] ∧
    pyStrip (rowGet
      [("测试用例ID", ""), ("测试功能", "test"), ("测试步骤", ""),
       ("预期结果", "")] "测试功能"
      (rowGet
        [("测试用例ID", ""), ("测试功能", "test"), ("测试步骤", ""),
         ("预期结果", "")] "test_function" "")) ≠ "" :=
  ⟨by decide, by decide⟩

/-- C8 amended: `parse_test_cases` keeps a row iff its id *and* its
function are both non-empty after trimming (under either header
scheme); a row lacking either field is dropped, and every produced test
case comes from such a kept row. -/
theorem claim_C8_amended (rows : List Row) (row : Row) (hrow : row ∈ rows) :
    ((∃ c ∈ parse_test_cases rows, parseTestCaseRow row = some c) ↔
      (pyStrip (rowGet row "测试用例ID" (rowGet row "test_id" "")) ≠ "" ∧
       pyStrip (rowGet row "测试功能" (rowGet row "test_function" "")) ≠ "")) ∧
    (∀ c ∈ parse_test_cases rows, ∃ r ∈ rows, parseTestCaseRow r = some c) := by
  constructor
  · constructor
    · rintro ⟨c, -, hsome⟩
      unfold parseTestCaseRow at hsome
      by_cases hc : pyStrip (rowGet row "测试用例ID" (rowGet row "test_id" "")) ≠ "" ∧
          pyStrip (rowGet row "测试功能" (rowGet row "test_function" "")) ≠ ""
      · exact hc
      · rw [if_neg hc] at hsome
        exact absurd hsome (by simp)
    · intro hc
      refine ⟨{ test_id := pyStrip (rowGet row "测试用例ID" (rowGet row "test_id" ""))
                test_function := pyStrip (rowGet row "测试功能" (rowGet row "test_function" ""))
                test_steps := pyStrip (rowGet row "测试步骤" (rowGet row "test_steps" ""))
                expected_result := pyStrip (rowGet row "预期结果" (rowGet row "expected_result" "")) },
              ?_, ?_⟩
      · exact List.mem_filterMap.mpr
          ⟨row, hrow, by unfold parseTestCaseRow; rw [if_pos hc]⟩
      · unfold parseTestCaseRow
        rw [if_pos hc]
  · intro c hc
    exact List.mem_filterMap.mp hc

/-- Witness for the amended C8: a row with both fields present is kept. -/
theorem claim_C8_amended_witness :
    (([("测试用例ID", "TC001"), ("测试功能", "创建用户"), ("测试步骤", ""),
       ("预期结果", "")] : Row) ∈
      ([[("测试用例ID", "TC001"), ("测试功能", "创建用户"), ("测试步骤", ""),
         ("预期结果", "")]] : List Row)) ∧
    (∃ c ∈ parse_test_cases
        [[("测试用例ID", "TC001"), ("测试功能", "创建用户"), ("测试步骤", ""),
          ("预期结果", "")]],
      parseTestCaseRow
        [("测试用例ID", "TC001"), ("测试功能", "创建用户"), ("测试步骤", ""),
         ("预期结果", "")] = some c) :=
  ⟨by decide,
    (claim_C8_amended
      [[("测试用例ID", "TC001"), ("测试功能", "创建用户"), ("测试步骤", ""),
        ("预期结果", "")]]
      [("测试用例ID", "TC001"), ("测试功能", "创建用户"), ("测试步骤", ""),
       ("预期结果", "")] (by decide)).1.mpr (by decide)⟩

theorem pre_isPrefixOf_append (pre s : String) :
    pre.data.isPrefixOf ((pre ++ s).data) = true :=
  List.isPrefixOf_iff_prefix.mpr (List.prefix_append _ _)

theorem not_isPrefixOf_append {p q : List Char} (t : List Char)
    (h1 : ¬ p <+: q) (h2 : ¬ q <+: p) : p.isPrefixOf (q ++ t) = false := by
  rw [Bool.eq_false_iff]
  intro hpre
  have hp : p <+: q ++ t := List.isPrefixOf_iff_prefix.mp hpre
  rcases le_or_lt p.length q.length with hle | hlt
  · exact h1 (List.prefix_of_prefix_length_le hp (List.prefix_append q t) hle)
  · exact h2 (List.prefix_of_prefix_length_le (List.prefix_append q t) hp
      (le_of_lt hlt))

theorem countP_prefixed_block (pre : String) (lines : List String) (n : Nat) :
    ((lines.take n).map (fun line => pre ++ pyRstrip line)).countP
      (fun l => pre.data.isPrefixOf l.data) = min n lines.length := by
  rw [List.countP_eq_length.mpr, List.length_map, List.length_take]
  intro a ha
  obtain ⟨line, -, rfl⟩ := List.mem_map.mp ha
  exact pre_isPrefixOf_append pre (pyRstrip line)

theorem countP_other_block (pre other : String) (lines : List String)
    (n : Nat) (h1 : ¬ pre.data <+: other.data)
    (h2 : ¬ other.data <+: pre.data) :
    ((lines.take n).map (fun line => other ++ pyRstrip line)).countP
      (fun l => pre.data.isPrefixOf l.data) = 0 := by
  rw [List.countP_eq_zero]
  intro a ha
  obtain ⟨line, -, rfl⟩ := List.mem_map.mp ha
  rw [show (other ++ pyRstrip line).data = other.data ++ (pyRstrip line).data
      from rfl,
    not_isPrefixOf_append _ h1 h2]
  simp

theorem not_isPrefixOf_strings (pre q t : String)
    (h1 : ¬ pre.data <+: q.data) (h2 : ¬ q.data <+: pre.data) :
    pre.data.isPrefixOf ((q ++ t).data) = false :=
  not_isPrefixOf_append t.data h1 h2

/-- C9: in the per-file block of `format_diff_summary`, at most 10
added-content lines (prefix `    + `) and at most 10 removed-content
lines (prefix `    - `) are printed — exactly `min 10 k` of them for a
side with `k` lines — and a side with more than 10 lines also prints
the line `    ... 还有 K 行` with `K` equal to that side's line count
minus 10; the non-error summary is exactly the newline-join of the
header lines and the per-file blocks. -/
theorem claim_C9 (result : AnalysisResult) (h : result.error = none)
    (idx : Nat) (d : DiffResult) :
    format_diff_summary result =
      String.intercalate "\n"
        (["共检测到 " ++ toString result.diffs.length ++ " 个代码文件变更",
          "总新增 " ++ toString result.total_added ++ " 行，总删除 " ++
            toString result.total_removed ++ " 行", ""] ++
          result.diffs.enum.flatMap
            (fun p => formatFileSection (p.1 + 1) p.2)) ∧
    (formatFileSection idx d).countP
        (fun l => "    + ".data.isPrefixOf l.data) =
      min 10 d.added_lines.length ∧
    (formatFileSection idx d).countP
        (fun l => "    - ".data.isPrefixOf l.data) =
      min 10 d.removed_lines.length ∧
    (10 < d.added_lines.length →
      ("    ... 还有 " ++ toString (d.added_lines.length - 10) ++ " 行") ∈
        formatFileSection idx d) ∧
    (10 < d.removed_lines.length →
      ("    ... 还有 " ++ toString (d.removed_lines.length - 10) ++ " 行") ∈
        formatFileSection idx d) := by
  have hA : ∀ pre : String,
      ¬ pre.data <+: "### 文件 ".data → ¬ "### 文件 ".data <+: pre.data →
      pre.data.isPrefixOf
        (("### 文件 " ++ toString idx ++ ": " ++ d.package_path).data) =
        false := by
    intro pre h1 h2
    rw [String.append_assoc, String.append_assoc]
    exact not_isPrefixOf_strings pre _ _ h1 h2
  have hB : ∀ pre : String,
      ¬ pre.data <+: "  新增 ".data → ¬ "  新增 ".data <+: pre.data →
      pre.data.isPrefixOf
        (("  新增 " ++ toString d.added_lines.length ++ " 行, 删除 " ++
          toString d.removed_lines.length ++ " 行").data) = false := by
    intro pre h1 h2
    rw [String.append_assoc, String.append_assoc, String.append_assoc]
    exact not_isPrefixOf_strings pre _ _ h1 h2
  have hT : ∀ (pre : String) (k : Nat),
      ¬ pre.data <+: "    ... 还有 ".data →
      ¬ "    ... 还有 ".data <+: pre.data →
      pre.data.isPrefixOf
        (("    ... 还有 " ++ toString k ++ " 行").data) = false := by
    intro pre k h1 h2
    rw [String.append_assoc]
    exact not_isPrefixOf_strings pre _ _ h1 h2
  refine ⟨?_, ?_, ?_, ?_, ?_⟩
  · unfold format_diff_summary
    rw [h]
    rfl
  · unfold formatFileSection
    rw [List.countP_append, List.countP_append, List.countP_append]
    have h1 : ([("### 文件 " ++ toString idx ++ ": " ++ d.package_path),
        ("  新增 " ++ toString d.added_lines.length ++ " 行, 删除 " ++
          toString d.removed_lines.length ++ " 行")] : List String).countP
        (fun l => "    + ".data.isPrefixOf l.data) = 0 := by
      simp [List.countP_cons, hA "    + " (by decide) (by decide),
        hB "    + " (by decide) (by decide)]
    have h2 : (if d.added_lines.isEmpty then ([] : List String)
        else ["  新增内容:"] ++
          (d.added_lines.take 10).map (fun line => "    + " ++ pyRstrip line) ++
          (if 10 < d.added_lines.length then
            ["    ... 还有 " ++ toString (d.added_lines.length - 10) ++ " 行"]
           else [])).countP (fun l => "    + ".data.isPrefixOf l.data) =
        min 10 d.added_lines.length := by
      by_cases he : d.added_lines.isEmpty
      · have : d.added_lines.length = 0 := by
          simpa [List.isEmpty_iff, List.length_eq_zero] using he
        simp [he, this]
      · rw [if_neg he, List.countP_append, List.countP_append]
        have hc1 : (["  新增内容:"] : List String).countP
            (fun l => "    + ".data.isPrefixOf l.data) = 0 := by decide
        have hc2 := countP_prefixed_block "    + " d.added_lines 10
        have hc3 : (if 10 < d.added_lines.length then
            (["    ... 还有 " ++ toString (d.added_lines.length - 10) ++ " 行"] :
              List String) else []).countP
            (fun l => "    + ".data.isPrefixOf l.data) = 0 := by
          by_cases h10 : 10 < d.added_lines.length
          · simp [h10, List.countP_cons,
              hT "    + " (d.added_lines.length - 10) (by decide) (by decide)]
          · simp [h10]
        rw [hc1, hc2, hc3]
        omega
    have h3 : (if d.removed_lines.isEmpty then ([] : List String)
        else ["  删除内容:"] ++
          (d.removed_lines.take 10).map (fun line => "    - " ++ pyRstrip line) ++
          (if 10 < d.removed_lines.length then
            ["    ... 还有 " ++ toString (d.removed_lines.length - 10) ++ " 行"]
           else [])).countP (fun l => "    + ".data.isPrefixOf l.data) = 0 := by
      by_cases he : d.removed_lines.isEmpty
      · simp [he]
      · rw [if_neg he, List.countP_append, List.countP_append]
        have hc1 : (["  删除内容:"] : List String).countP
            (fun l => "    + ".data.isPrefixOf l.data) = 0 := by decide
        have hc2 := countP_other_block "    + " "    - " d.removed_lines 10
          (by decide) (by decide)
        have hc3 : (if 10 < d.removed_lines.length then
            (["    ... 还有 " ++ toString (d.removed_lines.length - 10) ++ " 行"] :
              List String) else []).countP
            (fun l => "    + ".data.isPrefixOf l.data) = 0 := by
          by_cases h10 : 10 < d.removed_lines.length
          · simp [h10, List.countP_cons,
              hT "    + " (d.removed_lines.length - 10) (by decide) (by decide)]
          · simp [h10]
        rw [hc1, hc2, hc3]
    have h4 : ([""] : List String).countP
        (fun l => "    + ".data.isPrefixOf l.data) = 0 := by decide
    rw [h1, h2, h3, h4]
    omega
  · unfold formatFileSection
    rw [List.countP_append, List.countP_append, List.countP_append]
    have h1 : ([("### 文件 " ++ toString idx ++ ": " ++ d.package_path),
        ("  新增 " ++ toString d.added_lines.length ++ " 行, 删除 " ++
          toString d.removed_lines.length ++ " 行")] : List String).countP
        (fun l => "    - ".data.isPrefixOf l.data) = 0 := by
      simp [List.countP_cons, hA "    - " (by decide) (by decide),
        hB "    - " (by decide) (by decide)]
    have h2 : (if d.added_lines.isEmpty then ([] : List String)
        else ["  新增内容:"] ++
          (d.added_lines.take 10).map (fun line => "    + " ++ pyRstrip line) ++
          (if 10 < d.added_lines.length then
            ["    ... 还有 " ++ toString (d.added_lines.length - 10) ++ " 行"]
           else [])).countP (fun l => "    - ".data.isPrefixOf l.data) = 0 := by
      by_cases he : d.added_lines.isEmpty
      · simp [he]
      · rw [if_neg he, List.countP_append, List.countP_append]
        have hc1 : (["  新增内容:"] : List String).countP
            (fun l => "    - ".data.isPrefixOf l.data) = 0 := by decide
        have hc2 := countP_other_block "    - " "    + " d.added_lines 10
          (by decide) (by decide)
        have hc3 : (if 10 < d.added_lines.length then
            (["    ... 还有 " ++ toString (d.added_lines.length - 10) ++ " 行"] :
              List String) else []).countP
            (fun l => "    - ".data.isPrefixOf l.data) = 0 := by
          by_cases h10 : 10 < d.added_lines.length
          · simp [h10, List.countP_cons,
              hT "    - " (d.added_lines.length - 10) (by decide) (by decide)]
          · simp [h10]
        rw [hc1, hc2, hc3]
    have h3 : (if d.removed_lines.isEmpty then ([] : List String)
        else ["  删除内容:"] ++
          (d.removed_lines.take 10).map (fun line => "    - " ++ pyRstrip line) ++
          (if 10 < d.removed_lines.length then
            ["    ... 还有 " ++ toString (d.removed_lines.length - 10) ++ " 行"]
           else [])).countP (fun l => "    - ".data.isPrefixOf l.data) =
        min 10 d.removed_lines.length := by
      by_cases he : d.removed_lines.isEmpty
      · have : d.removed_lines.length = 0 := by
          simpa [List.isEmpty_iff, List.length_eq_zero] using he
        simp [he, this]
      · rw [if_neg he, List.countP_append, List.countP_append]
        have hc1 : (["  删除内容:"] : List String).countP
            (fun l => "    - ".data.isPrefixOf l.data) = 0 := by decide
        have hc2 := countP_prefixed_block "    - " d.removed_lines 10
        have hc3 : (if 10 < d.removed_lines.length then
            (["    ... 还有 " ++ toString (d.removed_lines.length - 10) ++ " 行"] :
              List String) else []).countP
            (fun l => "    - ".data.isPrefixOf l.data) = 0 := by
          by_cases h10 : 10 < d.removed_lines.length
          · simp [h10, List.countP_cons,
              hT "    - " (d.removed_lines.length - 10) (by decide) (by decide)]
          · simp [h10]
        rw [hc1, hc2, hc3]
        omega
    have h4 : ([""] : List String).countP
        (fun l => "    - ".data.isPrefixOf l.data) = 0 := by decide
    rw [h1, h2, h3, h4]
    omega
  · intro h10
    have he : ¬ d.added_lines.isEmpty := by
      simp [List.isEmpty_iff, ← List.length_pos]
      omega
    unfold formatFileSection
    rw [if_neg he, if_pos h10]
    simp
  · intro h10
    have he : ¬ d.removed_lines.isEmpty := by
      simp [List.isEmpty_iff, ← List.length_pos]
      omega
    unfold formatFileSection
    rw [if_neg he, if_pos h10]
    simp

/-- The concrete diff record used by the C9 witness. -/
def c9diff : DiffResult :=
  { package_path := "com.x"
    added_lines := ["a1", "a2", "a3", "a4", "a5", "a6", "a7", "a8", "a9",
      "a10", "a11", "a12"]
    removed_lines := []
    changed_lines := [] }

/-- The concrete analysis result used by the C9 witness. -/
def c9result : AnalysisResult :=
  { diffs := [c9diff], total_added := 12, total_removed := 0, error := none }

/-- Witness for C9 at a result with 12 added lines in one file. -/
theorem claim_C9_witness :
    c9result.error = none ∧
    (formatFileSection 1 c9diff).countP
      (fun l => "    + ".data.isPrefixOf l.data) = 10 ∧
    ("    ... 还有 " ++ toString (c9diff.added_lines.length - 10) ++ " 行") ∈
      formatFileSection 1 c9diff := by
  have h := claim_C9 c9result rfl 1 c9diff
  refine ⟨rfl, h.2.1.trans (by decide), h.2.2.2.1 (by decide)⟩

theorem get_grade_iff (t : ℚ) :
    (get_grade t = "A" ↔ 90 ≤ t) ∧
    (get_grade t = "B" ↔ (80 ≤ t ∧ t < 90)) ∧
    (get_grade t = "C" ↔ (60 ≤ t ∧ t < 80)) ∧
    (get_grade t = "D" ↔ (40 ≤ t ∧ t < 60)) ∧
    (get_grade t = "F" ↔ t < 40) := by
  unfold get_grade
  split_ifs with h1 h2 h3 h4
  · exact ⟨iff_of_true rfl h1,
      iff_of_false (by decide) (by rintro ⟨-, h⟩; linarith),
      iff_of_false (by decide) (by rintro ⟨-, h⟩; linarith),
      iff_of_false (by decide) (by rintro ⟨-, h⟩; linarith),
      iff_of_false (by decide) (by intro h; linarith)⟩
  · have h1' : t < 90 := by linarith [not_le.mp h1]
    exact ⟨iff_of_false (by decide) (by intro h; linarith),
      iff_of_true rfl ⟨h2, h1'⟩,
      iff_of_false (by decide) (by rintro ⟨-, h⟩; linarith),
      iff_of_false (by decide) (by rintro ⟨-, h⟩; linarith),
      iff_of_false (by decide) (by intro h; linarith)⟩
  · have h2' : t < 80 := by linarith [not_le.mp h2]
    exact ⟨iff_of_false (by decide) (by intro h; linarith),
      iff_of_false (by decide) (by rintro ⟨h, -⟩; linarith),
      iff_of_true rfl ⟨h3, h2'⟩,
      iff_of_false (by decide) (by rintro ⟨-, h⟩; linarith),
      iff_of_false (by decide) (by intro h; linarith)⟩
  · have h3' : t < 60 := by linarith [not_le.mp h3]
    exact ⟨iff_of_false (by decide) (by intro h; linarith),
      iff_of_false (by decide) (by rintro ⟨h, -⟩; linarith),
      iff_of_false (by decide) (by rintro ⟨h, -⟩; linarith),
      iff_of_true rfl ⟨h4, h3'⟩,
      iff_of_false (by decide) (by intro h; linarith)⟩
  · have h4' : t < 40 := by linarith [not_le.mp h4]
    exact ⟨iff_of_false (by decide) (by intro h; linarith),
      iff_of_false (by decide) (by rintro ⟨h, -⟩; linarith),
      iff_of_false (by decide) (by rintro ⟨h, -⟩; linarith),
      iff_of_false (by decide) (by rintro ⟨h, -⟩; linarith),
      iff_of_true rfl h4'⟩

/-- C5: the total score of `calculate_score` is always in `[0, 100]`
and equals the sum of the four weighted dimension scores clamped to
`[0, 100]` and rounded to one decimal; the grade is A iff the total is
≥ 90, B iff in [80, 90), C iff in [60, 80), D iff in [40, 60), F iff
below 40; and with no test cases, zero covered methods and a positive
changed-method count the total score is 0 and the grade is F. -/
theorem claim_C5 (total_changed_methods covered_count : Nat)
    (test_cases : List ScoreCase) :
    (0 ≤ (calculate_score total_changed_methods covered_count
        test_cases).total_score ∧
     (calculate_score total_changed_methods covered_count
        test_cases).total_score ≤ 100 ∧
     (calculate_score total_changed_methods covered_count
        test_cases).total_score =
       pyRound (min 100 (max 0
         (((calculate_score total_changed_methods covered_count
             test_cases).dimensions.map DimensionScore.weighted_score).sum)))
         1 ∧
     ((calculate_score total_changed_methods covered_count
        test_cases).grade = "A" ↔
       90 ≤ (calculate_score total_changed_methods covered_count
         test_cases).total_score) ∧
     ((calculate_score total_changed_methods covered_count
        test_cases).grade = "B" ↔
       (80 ≤ (calculate_score total_changed_methods covered_count
          test_cases).total_score ∧
        (calculate_score total_changed_methods covered_count
          test_cases).total_score < 90)) ∧
     ((calculate_score total_changed_methods covered_count
        test_cases).grade = "C" ↔
       (60 ≤ (calculate_score total_changed_methods covered_count
          test_cases).total_score ∧
        (calculate_score total_changed_methods covered_count
          test_cases).total_score < 80)) ∧
     ((calculate_score total_changed_methods covered_count
        test_cases).grade = "D" ↔
       (40 ≤ (calculate_score total_changed_methods covered_count
          test_cases).total_score ∧
        (calculate_score total_changed_methods covered_count
          test_cases).total_score < 60)) ∧
     ((calculate_score total_changed_methods covered_count
        test_cases).grade = "F" ↔
       (calculate_score total_changed_methods covered_count
         test_cases).total_score < 40)) ∧
    (test_cases = [] → covered_count = 0 → 0 < total_changed_methods →
      (calculate_score total_changed_methods covered_count
        test_cases).total_score = 0 ∧
      (calculate_score total_changed_methods covered_count
        test_cases).grade = "F") := by
  have htot : (calculate_score total_changed_methods covered_count
      test_cases).total_score =
      pyRound (min 100 (max 0
        (((calculate_score total_changed_methods covered_count
            test_cases).dimensions.map DimensionScore.weighted_score).sum)))
        1 := rfl
  have hgr : (calculate_score total_changed_methods covered_count
      test_cases).grade =
      get_grade ((calculate_score total_changed_methods covered_count
        test_cases).total_score) := rfl
  have hq0 : (0 : ℚ) ≤ min 100 (max 0
      (((calculate_score total_changed_methods covered_count
          test_cases).dimensions.map DimensionScore.weighted_score).sum)) :=
    le_min (by norm_num) (le_max_left 0 _)
  have hq100 : min 100 (max 0
      (((calculate_score total_changed_methods covered_count
          test_cases).dimensions.map DimensionScore.weighted_score).sum)) ≤
      ((100 : ℤ) : ℚ) := by
    push_cast
    exact min_le_left _ _
  constructor
  · refine ⟨?_, ?_, htot, ?_, ?_, ?_, ?_, ?_⟩
    · rw [htot]
      exact pyRound_nonneg hq0 1
    · rw [htot]
      have := pyRound_le hq100 1
      push_cast at this
      exact this
    · rw [hgr]
      exact (get_grade_iff _).1
    · rw [hgr]
      exact (get_grade_iff _).2.1
    · rw [hgr]
      exact (get_grade_iff _).2.2.1
    · rw [hgr]
      exact (get_grade_iff _).2.2.2.1
    · rw [hgr]
      exact (get_grade_iff _).2.2.2.2
  · intro h0 hc hn
    subst h0
    subst hc
    have hne : total_changed_methods ≠ 0 := Nat.pos_iff_ne_zero.mp hn
    have h1 : (score_coverage total_changed_methods 0).weighted_score = 0 := by
      unfold score_coverage
      rw [if_neg hne]
      norm_num [pyRound_zero]
    have hsum : ((calculate_score total_changed_methods 0
        []).dimensions.map DimensionScore.weighted_score).sum = 0 := by
      show (score_coverage total_changed_methods 0).weighted_score +
        ((score_completeness []).weighted_score +
          ((score_clarity []).weighted_score +
            ((score_boundary [] total_changed_methods).weighted_score + 0))) = 0
      rw [h1]
      norm_num [score_completeness, score_clarity, score_boundary]
    have htot0 : (calculate_score total_changed_methods 0
        []).total_score = 0 := by
      rw [htot, hsum]
      norm_num [pyRound_zero]
    refine ⟨htot0, ?_⟩
    rw [hgr, htot0]
    norm_num [get_grade]

/-- Witness for C5: one changed method, nothing covered, no test
cases — total score 0, grade F. -/
theorem claim_C5_witness :
    (([] : List ScoreCase) = [] ∧ 0 = 0 ∧ 0 < 1) ∧
    (calculate_score 1 0 []).total_score = 0 ∧
    (calculate_score 1 0 []).grade = "F" :=
  ⟨⟨rfl, rfl, by decide⟩, (claim_C5 1 0 []).2 rfl rfl (by decide)⟩

theorem getGroupedOpcodes_single_equal (n : Nat) :
    getGroupedOpcodes [⟨DiffTag.equal, 0, n, 0, n⟩] = [] := by
  have h3 : adjustLast (adjustFirst
      (if ([(⟨DiffTag.equal, 0, n, 0, n⟩ : Opcode)] : List Opcode).isEmpty then
        [(⟨DiffTag.equal, 0, 1, 0, 1⟩ : Opcode)]
      else [(⟨DiffTag.equal, 0, n, 0, n⟩ : Opcode)])) =
      [⟨DiffTag.equal, max 0 (n - 3), min n (max 0 (n - 3) + 3),
        max 0 (n - 3), min n (max 0 (n - 3) + 3)⟩] := by
    simp [adjustFirst, adjustLast]
  have hstep : groupStep ([], [])
      (⟨DiffTag.equal, max 0 (n - 3), min n (max 0 (n - 3) + 3),
        max 0 (n - 3), min n (max 0 (n - 3) + 3)⟩ : Opcode) =
      ([], [⟨DiffTag.equal, max 0 (n - 3), min n (max 0 (n - 3) + 3),
        max 0 (n - 3), min n (max 0 (n - 3) + 3)⟩]) := by
    unfold groupStep
    rw [if_neg]
    · rfl
    · rintro ⟨-, habs⟩
      simp only [] at habs
      omega
  unfold getGroupedOpcodes
  dsimp only
  rw [h3, List.foldl_cons, List.foldl_nil, hstep]
  rfl

theorem matchLen_self (l : List String) : matchLen l l = l.length := by
  induction l with
  | nil => rfl
  | cons x xs ih => simp [matchLen, ih]

theorem findLongestMatch_self (a : List String) :
    findLongestMatch a a 0 a.length 0 a.length = (0, 0, a.length) := by
  rcases Nat.eq_zero_or_pos a.length with h0 | hpos
  · unfold findLongestMatch flmCandidates
    rw [h0]
    rfl
  · obtain ⟨m, hm⟩ : ∃ m, a.length = m + 1 := ⟨a.length - 1, by omega⟩
    have hrange : List.range' 0 (a.length - 0) = 0 :: List.range' 1 m := by
      rw [Nat.sub_zero, hm, List.range'_succ]
    have hg : ((0 : Nat), (0 : Nat),
        min (matchLen (List.drop 0 a) (List.drop 0 a))
          (min (a.length - 0) (a.length - 0))) =
        ((0 : Nat), (0 : Nat), a.length) := by
      simp [matchLen_self]
    unfold findLongestMatch flmCandidates
    rw [hrange, List.flatMap_cons, List.map_cons, List.cons_append, hg,
      List.foldl_cons]
    rw [if_pos (by simpa using hpos)]
    apply foldl_best_const
    intro c hc
    rcases List.mem_append.mp hc with hmem | hmem
    · obtain ⟨j, -, rfl⟩ := List.mem_map.mp hmem
      show min (matchLen (a.drop 0) (a.drop j))
        (min (a.length - 0) (a.length - j)) ≤ a.length
      exact le_trans (min_le_right _ _)
        (le_trans (min_le_left _ _) (by omega))
    · simp only [List.mem_flatMap, List.mem_map] at hmem
      obtain ⟨i, -, j, -, rfl⟩ := hmem
      show min (matchLen (a.drop i) (a.drop j))
        (min (a.length - i) (a.length - j)) ≤ a.length
      exact le_trans (min_le_right _ _)
        (le_trans (min_le_left _ _) (Nat.sub_le _ _))

theorem matchingBlocksAux_empty (fuel : Nat) (a b : List String)
    (alo blo bhi : Nat) :
    matchingBlocksAux fuel a b alo alo blo bhi = [] := by
  cases fuel with
  | zero => rfl
  | succ f =>
    have hflm : findLongestMatch a b alo alo blo bhi = (alo, blo, 0) := by
      unfold findLongestMatch flmCandidates
      rw [Nat.sub_self]
      rfl
    unfold matchingBlocksAux
    rw [hflm]
    rfl

theorem matchingBlocks_self (a : List String) :
    matchingBlocks a a =
      (if 0 < a.length then [((0 : Nat), (0 : Nat), a.length)] else []) ++
        [(a.length, a.length, 0)] := by
  unfold matchingBlocks
  rcases Nat.eq_zero_or_pos a.length with h0 | hpos
  · have hf := findLongestMatch_self a
    rw [if_neg (by omega)]
    rw [h0] at hf ⊢
    show matchingBlocksAux (0 + 0 + 1) a a 0 0 0 0 ++ [(0, 0, 0)] = _
    unfold matchingBlocksAux
    rw [hf]
    rfl
  · rw [if_pos hpos]
    show matchingBlocksAux (a.length + a.length + 1) a a
      0 a.length 0 a.length ++ [(a.length, a.length, 0)] = _
    unfold matchingBlocksAux
    dsimp only
    rw [findLongestMatch_self a]
    rw [if_pos (by simpa using hpos)]
    rw [show (0 : Nat) + a.length = a.length from Nat.zero_add _]
    rw [matchingBlocksAux_empty, matchingBlocksAux_empty]
    rfl

theorem getOpcodes_self (a : List String) :
    getOpcodes a a =
      (if 0 < a.length then
        [⟨DiffTag.equal, 0, a.length, 0, a.length⟩] else ([] : List Opcode)) := by
  unfold getOpcodes
  rw [matchingBlocks_self]
  rcases Nat.eq_zero_or_pos a.length with h0 | hpos
  · rw [if_neg (by omega), if_neg (by omega), h0]
    rfl
  · rw [if_pos hpos, if_pos hpos]
    rw [List.cons_append, List.nil_append]
    unfold opcodesAux
    dsimp only
    rw [if_neg (by simp), if_neg (by simp), if_neg (by simp),
      if_pos hpos]
    unfold opcodesAux
    dsimp only
    rw [if_neg (by simp), if_neg (by simp), if_neg (by simp),
      if_neg (by simp)]
    simp
    rfl

theorem unified_diff_self (a : List String) (fromfile tofile : String) :
    unified_diff a a fromfile tofile = [] := by
  unfold unified_diff
  rw [getOpcodes_self]
  rcases Nat.eq_zero_or_pos a.length with h0 | hpos
  · rw [if_neg (by omega)]
    rw [show getGroupedOpcodes ([] : List Opcode) = [] from by decide]
    rfl
  · rw [if_pos hpos, getGroupedOpcodes_single_equal]
    rfl

/-- C7: for every text `x`, `compute_diff(x, x)` has empty added-lines
and removed-lines sequences. -/
theorem claim_C7 (x : String) :
    (compute_diff x x).added_lines = [] ∧
    (compute_diff x x).removed_lines = [] := by
  have h := unified_diff_self (splitlinesKeepends x) "history" "current"
  unfold compute_diff
  dsimp only
  rw [h]
  exact ⟨rfl, rfl⟩

/-- Witness for C7 on a concrete two-line file. -/
theorem claim_C7_witness :
    (compute_diff "package com.x;\nline1\n" "package com.x;\nline1\n").added_lines = [] ∧
    (compute_diff "package com.x;\nline1\n" "package com.x;\nline1\n").removed_lines = [] :=
  claim_C7 "package com.x;\nline1\n"
